import Mathlib

/-!
Verification of the VSCode AI-agent orchestration layer: a shallow embedding
of `agent-orchestrator.ts`, `model-manager.ts`, `tools/tool-system.ts` and
`memory/memory-system.ts`, together with theorems settling the frozen claims
about request lifecycle, model selection, tool dispatch and memory search.

Conventions of the embedding:
* TypeScript strings are Lean `String`s; `Map` objects keyed by strings are
  association lists that preserve insertion order, as JS `Map` does.
* Thrown JS exceptions are `Except String` values carrying the message that
  `error.message` would carry; `try`/`catch`/`finally` becomes the
  corresponding case analysis, with the finalizer applied on every branch.
* Asynchronous I/O performed by external collaborators (provider HTTP calls,
  tool side effects, clock readings) is abstracted into an environment record
  supplying the observed outcome of each such call.
* Rational numbers stand in for JS floating-point relevance scores; every
  number the code manipulates here (fractions with small denominators) is
  represented exactly, so no floating-point rounding is lost.
-/

deriving instance DecidableEq for Except

namespace AgentSpec

/-! ## JS string primitives used by the memory system

`calculateRelevance` lowercases and splits on `/\W+/`.  A JS word character
is `[A-Za-z0-9_]`; `String.prototype.split` with that separator yields the
(possibly empty) pieces between maximal runs of non-word characters,
including an empty piece when the string starts or ends with a separator,
and `[""]` on the empty string. -/

def isWordChar (c : Char) : Bool :=
  c.isAlphanum || c == '_'

/-- Prepend a character to the first token of a token list. -/
def consTok (c : Char) : List (List Char) → List (List Char)
  | [] => [[c]]
  | t :: ts => (c :: t) :: ts

mutual

/-- Split state: not currently inside a separator run. -/
def splitWords : List Char → List (List Char)
  | [] => [[]]
  | c :: cs => if isWordChar c then consTok c (splitWords cs) else [] :: splitSep cs

/-- Split state: inside a separator run (the empty boundary token has
already been emitted by `splitWords`). -/
def splitSep : List Char → List (List Char)
  | [] => [[]]
  | c :: cs => if isWordChar c then consTok c (splitWords cs) else splitSep cs

end

/-- JS `s.split(/\W+/)`. -/
def jsSplitNonWord (s : String) : List String :=
  (splitWords s.data).map fun t => String.mk t

/-- JS `s.toLowerCase()` (the sources only feed it ASCII). -/
def jsToLower (s : String) : String :=
  String.mk (s.data.map Char.toLower)

/-- Does `needle` occur as a contiguous run inside `hay`? -/
def containsSeq (needle : List Char) : List Char → Bool
  | [] => needle.isEmpty
  | c :: cs => needle.isPrefixOf (c :: cs) || containsSeq needle cs

/-- JS `s.includes(sub)`: substring containment. -/
def jsIncludes (s sub : String) : Bool :=
  containsSeq sub.data s.data

/-! ## Memory system (`memory/memory-system.ts`) -/

/-- The `type` field of an `IMemoryEntry`. -/
inductive MemType where
  | conversation
  | knowledge
  | pattern
  | context
deriving DecidableEq, Repr

def MemType.toName : MemType → String
  | .conversation => "conversation"
  | .knowledge => "knowledge"
  | .pattern => "pattern"
  | .context => "context"

/-- An `IMemoryEntry` held in `MemorySystem.memory`.  `content` is the
entry content in the textual form relevance scoring sees: the code applies
`typeof content === 'string' ? content : JSON.stringify(content)` before
scoring, so the embedding stores that resulting string directly. -/
structure MemoryEntry where
  id : String
  mtype : MemType
  content : String
  source : String
  timestamp : Nat
  relevanceMeta : ℚ
  tags : List String
deriving DecidableEq, Repr

/-- A node of the knowledge graph, with `propsText` standing for
`JSON.stringify(node.properties)`. -/
structure KnowledgeNode where
  label : String
  ntype : String
  propsText : String
deriving DecidableEq, Repr

/-- An `IKnowledgeEntry` returned by `searchRelevantKnowledge`. -/
structure KnowledgeEntry where
  content : String
  relevance : ℚ
  source : String
  ktype : String
deriving DecidableEq, Repr

/-- `MemorySystem.calculateRelevance`: the fraction of query tokens (with
multiplicity) that occur among the content tokens. -/
def calculateRelevance (query content : String) : ℚ :=
  let queryWords := jsSplitNonWord (jsToLower query)
  let contentWords := jsSplitNonWord (jsToLower content)
  let hits := (queryWords.filter fun w => contentWords.contains w).length
  mkRat hits queryWords.length

/-- Stable descending insertion by `relevance`: a new element goes after
every element of not-smaller relevance, which is what the stable JS
`sort((a, b) => b.relevance - a.relevance)` produces. -/
def insertByRelevance (x : KnowledgeEntry) : List KnowledgeEntry → List KnowledgeEntry
  | [] => [x]
  | y :: ys => if y.relevance < x.relevance then x :: y :: ys else y :: insertByRelevance x ys

/-- Stable sort by descending relevance. -/
def sortByRelevance (l : List KnowledgeEntry) : List KnowledgeEntry :=
  l.foldr insertByRelevance []

/-- `MemorySystem.searchKnowledgeGraph`: graph nodes scored against
`label + ' ' + JSON.stringify(properties)` with a 0.4 threshold. -/
def searchKnowledgeGraph (query : String) (nodes : List KnowledgeNode) : List KnowledgeEntry :=
  nodes.filterMap fun node =>
    let relevance := calculateRelevance query (node.label ++ " " ++ node.propsText)
    if relevance > mkRat 2 5 then
      some { content := "Knowledge: " ++ node.label ++ " (" ++ node.ntype ++ ")"
             relevance := relevance
             source := "knowledge_graph"
             ktype := "graph_node" }
    else none

/-- `MemorySystem.searchRelevantKnowledge`: stored `knowledge`/`pattern`
entries above the 0.3 threshold, then knowledge-graph hits, sorted by
descending relevance (ties in original order) and truncated to 10. -/
def searchRelevantKnowledge (query : String) (memory : List MemoryEntry)
    (graphNodes : List KnowledgeNode) : List KnowledgeEntry :=
  let results := memory.filterMap fun entry =>
    if entry.mtype = .knowledge ∨ entry.mtype = .pattern then
      let relevance := calculateRelevance query entry.content
      if relevance > mkRat 3 10 then
        some { content := entry.content
               relevance := relevance
               source := entry.source
               ktype := entry.mtype.toName }
      else none
    else none
  let graphResults := searchKnowledgeGraph query graphNodes
  (sortByRelevance (results ++ graphResults)).take 10

/-! ## Model manager (`model-manager.ts`) -/

/-- The `type` field of an `IModelInfo` / provider. -/
inductive ModelKind where
  | localModel
  | apiModel
deriving DecidableEq, Repr

/-- An `IModelInfo` descriptor. -/
structure ModelInfo where
  name : String
  provider : String
  mkind : ModelKind
  capabilities : List String
  contextLength : Nat
  costPerToken : Option ℚ := none
deriving DecidableEq, Repr

/-- A registered `IModelProvider`, abstracted to the outcomes the manager
observes: `available` is the result of `isAvailable()` (a provider whose
availability probe throws reports `false`), and `listing` is the result of
`listModels()`, with `.error` standing for a rejected listing call. -/
structure Provider where
  name : String
  available : Bool
  listing : Except String (List ModelInfo)
deriving Repr

/-- The per-name match used by `ModelManager.findModel`:
`m.name === modelName || m.name.includes(modelName)`. -/
def modelNameMatches (m : ModelInfo) (modelName : String) : Bool :=
  m.name == modelName || jsIncludes m.name modelName

/-- `ModelManager.findModel`: walk the providers in registration order,
skipping a provider whose listing call fails, and return the first model
whose name matches exactly or by substring. -/
def findModel (providers : List Provider) (modelName : String) : Option ModelInfo :=
  match providers with
  | [] => none
  | p :: ps =>
    match p.listing with
    | .error _ => findModel ps modelName
    | .ok models =>
      match models.find? fun m => modelNameMatches m modelName with
      | some m => some m
      | none => findModel ps modelName

/-- The fixed `taskModelMap` of `selectModelByTaskType`, with the
`|| taskModelMap.general` fallback for unknown task types. -/
def taskModelMap (taskType : String) : List String :=
  if taskType == "conversational" then ["gpt-4o", "claude-3-5-sonnet", "gemini-pro", "codellama"]
  else if taskType == "instruction" then ["codellama", "starcoder", "deepseek-coder", "gpt-4o"]
  else if taskType == "analytical" then ["claude-3-5-sonnet", "gpt-4o", "gemini-pro", "codellama:13b"]
  else if taskType == "code" then ["codellama", "starcoder", "deepseek-coder", "gpt-4o"]
  else if taskType == "debugging" then ["codellama", "starcoder", "gpt-4o", "claude-3-5-sonnet"]
  else if taskType == "testing" then ["codellama", "gpt-4o", "claude-3-5-sonnet", "starcoder"]
  else ["codellama", "gpt-4o", "claude-3-5-sonnet", "gemini-pro"]

/-- The `for (const modelName of preferredModels)` loop of
`selectModelByTaskType`: first table name found across providers. -/
def firstTableModel (providers : List Provider) : List String → Option ModelInfo
  | [] => none
  | n :: ns =>
    match findModel providers n with
    | some m => some m
    | none => firstTableModel providers ns

/-- `ModelManager.getAvailableModels`: union of the listings of the
providers whose `isAvailable()` returns true, skipping a provider whose
listing call fails. -/
def getAvailableModels (providers : List Provider) : List ModelInfo :=
  providers.flatMap fun p =>
    if p.available then
      match p.listing with
      | .ok models => models
      | .error _ => []
    else []

/-- `ModelManager.selectModelByTaskType`: table names in order, then the
first available model, else the `No models available` failure. -/
def selectModelByTaskType (providers : List Provider) (taskType : String) :
    Except String ModelInfo :=
  match firstTableModel providers (taskModelMap taskType) with
  | some m => .ok m
  | none =>
    match getAvailableModels providers with
    | m :: _ => .ok m
    | [] => .error "No models available"

/-- `ModelManager.selectModel`: honour a (truthy, hence non-empty)
preferred model name when some provider lists a match, else fall back to
the task-type policy. -/
def selectModel (providers : List Provider) (taskType : String)
    (preferredModel : Option String) : Except String ModelInfo :=
  match preferredModel with
  | some n =>
    if n.isEmpty then selectModelByTaskType providers taskType
    else
      match findModel providers n with
      | some m => .ok m
      | none => selectModelByTaskType providers taskType
  | none => selectModelByTaskType providers taskType

/-! ## Model calls -/

/-- The role of an `IChatMessage`. -/
inductive Role where
  | system
  | user
  | assistant
deriving DecidableEq, Repr

structure ChatMessage where
  role : Role
  content : String
deriving DecidableEq, Repr

/-- An `IModelRequest` as built by `prepareModelRequest`. -/
structure ModelRequest where
  messages : List ChatMessage
  model : String
  provider : String
  temperature : ℚ
  maxTokens : Nat
deriving DecidableEq, Repr

/-- An `IModelResponse` from a provider. -/
structure ModelResponse where
  content : String
  tokens : Option Nat := none
  confidence : Option ℚ := none
deriving DecidableEq, Repr

/-- `ModelManager.execute`: fail when the named provider is not
registered, otherwise forward to the provider call, whose outcome
(success, upstream failure, cancellation via the abort signal, timeout)
the environment supplies as `exec`. -/
def modelManagerExecute (providers : List Provider)
    (exec : ModelRequest → Except String ModelResponse)
    (request : ModelRequest) : Except String ModelResponse :=
  if (providers.find? fun p => p.name == request.provider).isSome then
    exec request
  else
    .error ("Provider " ++ request.provider ++ " not found")

/-! ## Requests (`agent-orchestrator.ts` interfaces) -/

/-- The `type` field of an `IAgentRequest`. -/
inductive RequestType where
  | chat
  | command
  | analysis
  | refactor
  | debug
  | test
deriving DecidableEq, Repr

/-- An `IAgentRequest`; the optional `context` and `options` sub-objects
are flattened into optional fields. -/
structure AgentRequest where
  id : String
  rtype : RequestType
  content : String
  ctxFilePath : Option String := none
  ctxSelection : Option String := none
  ctxWorkspace : Option String := none
  ctxLanguage : Option String := none
  optModel : Option String := none
  optProvider : Option String := none
  optStreaming : Option Bool := none
  optTimeout : Option Nat := none
deriving DecidableEq, Repr

/-- An `IAgentToolResult`.  JS `result: null` on the failure path is
`none`; on the success path `result` holds the textual (JSON) form of the
value the tool returned. -/
structure AgentToolResult where
  name : String
  result : Option String
  error : Option String := none
  duration : Nat
deriving DecidableEq, Repr

/-- An `IAgentResponse.metadata` object. -/
structure ResponseMetadata where
  model : String
  provider : String
  tokens : Nat
  duration : Nat
deriving DecidableEq, Repr

/-- An `IAgentResponse`. -/
structure AgentResponse where
  id : String
  requestId : String
  content : String
  tools : Option (List AgentToolResult) := none
  error : Option String := none
  metadata : Option ResponseMetadata := none
deriving DecidableEq, Repr

/-! ## Tool system (`tools/tool-system.ts`)

A registered tool is abstracted to what the dispatch layer observes: its
name, its capability tags, the outcome of awaiting `execute` (the returned
value as its JSON text, or the thrown error message), and the wall-clock
milliseconds the invocation consumes (the `Date.now()` difference the
orchestrator would measure around the `await`). -/

structure Tool where
  name : String
  capabilities : List String
  outcome : Except String String
  elapsed : Nat
deriving DecidableEq, Repr

/-- The fixed `capabilityMap` of `toolCapabilitiesMatchRequest`, keyed by
request type (every request type is in the table, so the `|| ['general']`
fallback is unreachable). -/
def capabilityMap (t : RequestType) : List String :=
  match t with
  | .chat => ["chat", "general"]
  | .command => ["fileops", "terminal", "code", "general"]
  | .analysis => ["analysis", "code", "search", "general"]
  | .refactor => ["fileops", "code", "analysis", "general"]
  | .debug => ["debug", "code", "terminal", "analysis", "general"]
  | .test => ["testing", "code", "terminal", "general"]

/-- `ToolSystem.toolCapabilitiesMatchRequest`: some capability of the tool
occurs among the request type's required capabilities. -/
def toolCapabilitiesMatchRequest (tool : Tool) (request : AgentRequest) : Bool :=
  tool.capabilities.any fun cap => (capabilityMap request.rtype).contains cap

/-- `ToolSystem.getToolsForRequest`: `enabledTools` is
`config?.enabled || []`; a tool is dropped when the enabled list is
non-empty and does not name it, and otherwise kept iff its capabilities
match the request type. -/
def getToolsForRequest (tools : List Tool) (enabledTools : List String)
    (request : AgentRequest) : List Tool :=
  tools.filter fun tool =>
    if !enabledTools.contains tool.name && enabledTools.length > 0 then
      false
    else
      toolCapabilitiesMatchRequest tool request

/-- The loop body of `AgentOrchestrator.executeTools` for one tool: a
successful invocation is recorded with its value and measured duration; a
thrown error is caught and recorded with `result: null`, the error
message, and `duration: 0`. -/
def toolResultFor (tool : Tool) : AgentToolResult :=
  match tool.outcome with
  | .ok value => { name := tool.name, result := some value, error := none, duration := tool.elapsed }
  | .error e => { name := tool.name, result := none, error := some e, duration := 0 }

/-- `AgentOrchestrator.executeTools`: run the eligible tools sequentially,
collecting one record per tool (the early return on an empty tool list
yields the same empty record list). -/
def executeTools (tools : List Tool) (enabledTools : List String)
    (request : AgentRequest) : List AgentToolResult :=
  (getToolsForRequest tools enabledTools request).map toolResultFor

/-! ## Memory state and `storeInteraction`

`MemorySystem` state as the orchestrator exercises it: the conversation
map, the knowledge entry map (in insertion order), and the knowledge
graph nodes.  The `codePatterns` map is omitted: it is written only by
`extractCodePatterns` and read only by `getCodePatterns`, which no
orchestrator path (and no claim) consults.  `persistMemory` writes a file
and swallows its own errors, leaving the in-memory state unchanged. -/

/-- A message stored in an `IConversationContext`. -/
structure StoredMessage where
  role : Role
  content : String
  timestamp : Nat
deriving DecidableEq, Repr

structure ConversationContext where
  messages : List StoredMessage
  summary : String
  keyTopics : List String
  lastActivity : Nat
deriving DecidableEq, Repr

structure MemoryState where
  conversations : List (String × ConversationContext)
  entries : List MemoryEntry
  graphNodes : List KnowledgeNode
deriving DecidableEq, Repr

/-- JS `Map.get`. -/
def mapGet (m : List (String × ConversationContext)) (k : String) :
    Option ConversationContext :=
  (m.find? fun kv => kv.1 == k).map fun kv => kv.2

/-- JS `Map.set`: replace in place when the key exists (keeping its
original position), append otherwise. -/
def mapSet (m : List (String × ConversationContext)) (k : String)
    (v : ConversationContext) : List (String × ConversationContext) :=
  match m with
  | [] => [(k, v)]
  | kv :: rest => if kv.1 == k then (k, v) :: rest else kv :: mapSet rest k v

/-- `MemorySystem.getConversationHistory`: empty for an unknown id. -/
def getConversationHistory (mem : MemoryState) (requestId : String) :
    List StoredMessage :=
  match mapGet mem.conversations requestId with
  | some conv => conv.messages
  | none => []

/-- Keep the first occurrence of each element (JS `Set` insertion order). -/
def dedupFirst : List String → List String
  | [] => []
  | x :: xs => x :: (dedupFirst xs).filter fun y => y != x

/-- The keyword list of `extractTags`. -/
def tagKeywords : List String :=
  ["function", "class", "import", "export", "async", "await", "try", "catch", "if", "for", "while"]

/-- `MemorySystem.extractTags`. -/
def extractTags (text : String) : List String :=
  dedupFirst ((jsSplitNonWord (jsToLower text)).filter fun w => tagKeywords.contains w)

/-- The keyword list of `updateConversationSummary`. -/
def summaryKeywords : List String :=
  ["function", "class", "error", "bug", "fix", "test", "api", "database"]

/-- `MemorySystem.updateConversationSummary` applied to one conversation. -/
def updateSummary (conv : ConversationContext) : ConversationContext :=
  let topics := dedupFirst
    ((conv.messages.flatMap fun m => jsSplitNonWord (jsToLower m.content)).filter
      fun w => summaryKeywords.contains w)
  { conv with
    keyTopics := topics
    summary := "Conversation with " ++ toString conv.messages.length ++
      " messages covering: " ++ String.intercalate ", " topics }

/-- Escape a string for inclusion in a JSON literal. -/
def jsonEscape (s : String) : String :=
  String.join (s.data.map fun c =>
    if c == '\\' then "\\\\"
    else if c == '\x22' then "\\\x22"
    else if c == '\n' then "\\n"
    else String.mk [c])

def jsonOfString (s : String) : String :=
  "\x22" ++ jsonEscape s ++ "\x22"

/-- `JSON.stringify` of the optional `request.context` object
(`undefined`-valued fields are dropped; a request without context
contributes no `context` key at all). -/
def contextJson (req : AgentRequest) : String :=
  let fields :=
    (match req.ctxFilePath with
     | some v => ["\x22filePath\x22:" ++ jsonOfString v]
     | none => []) ++
    (match req.ctxSelection with
     | some v => ["\x22selection\x22:" ++ jsonOfString v]
     | none => []) ++
    (match req.ctxWorkspace with
     | some v => ["\x22workspace\x22:" ++ jsonOfString v]
     | none => []) ++
    (match req.ctxLanguage with
     | some v => ["\x22language\x22:" ++ jsonOfString v]
     | none => [])
  if req.ctxFilePath.isNone ∧ req.ctxSelection.isNone ∧
     req.ctxWorkspace.isNone ∧ req.ctxLanguage.isNone then ""
  else ",\x22context\x22:\x7b" ++ String.intercalate "," fields ++ "\x7d"

/-- The `JSON.stringify` text of the knowledge object stored by
`extractKnowledge` (`{request, response, context}`), which is the form
later relevance queries score against. -/
def knowledgeContent (req : AgentRequest) (responseContent : String) : String :=
  "\x7b\x22request\x22:" ++ jsonOfString req.content ++
  ",\x22response\x22:" ++ jsonOfString responseContent ++
  contextJson req ++ "\x7d"

/-- `MemorySystem.extractKnowledge`: append one `knowledge` entry with
source `conversation`, relevance metadata 0.8 and keyword tags.  (The
code-pattern side branch only touches the omitted `codePatterns` map.) -/
def extractKnowledge (mem : MemoryState) (req : AgentRequest)
    (responseContent : String) (now : Nat) (freshId : String) : MemoryState :=
  { mem with entries := mem.entries ++
      [{ id := freshId
         mtype := .knowledge
         content := knowledgeContent req responseContent
         source := "conversation"
         timestamp := now
         relevanceMeta := mkRat 4 5
         tags := extractTags (req.content ++ " " ++ responseContent) }] }

/-- `MemorySystem.storeInteraction` (its own `try`/`catch` means it never
throws into the caller): append the user and assistant messages to the
conversation keyed by the request id, extract a knowledge entry, and
refresh the conversation summary.  `now` is the `Date.now()` reading and
`freshId` the generated knowledge-entry id. -/
def storeInteraction (mem : MemoryState) (req : AgentRequest)
    (responseContent : String) (now : Nat) (freshId : String) : MemoryState :=
  let conv :=
    match mapGet mem.conversations req.id with
    | some c => c
    | none => { messages := [], summary := "", keyTopics := [], lastActivity := now }
  let conv :=
    { conv with
      messages := conv.messages ++
        [{ role := .user, content := req.content, timestamp := now },
         { role := .assistant, content := responseContent, timestamp := now }]
      lastActivity := now }
  let conv := updateSummary conv
  let mem := { mem with conversations := mapSet mem.conversations req.id conv }
  extractKnowledge mem req responseContent now freshId

/-! ## Orchestrator (`agent-orchestrator.ts`) -/

/-- A lifecycle event fired by the orchestrator. -/
inductive AgentEvent where
  | started (request : AgentRequest)
  | responseReceived (response : AgentResponse)
  | ended (requestId : String)
deriving DecidableEq, Repr

/-- The orchestrator's mutable state: the in-flight request map (the ids
keyed in `activeRequests`; the abort controllers they map to are pure
I/O handles), the stream of fired events, and the memory system state. -/
structure OrchState where
  activeRequests : List String
  events : List AgentEvent
  memory : MemoryState
deriving DecidableEq, Repr

/-- `Map.set` on the in-flight map, observed on ids: a duplicate id
overwrites its controller and leaves the key set unchanged. -/
def idsSet (ids : List String) (id : String) : List String :=
  if ids.contains id then ids else ids ++ [id]

/-- `Map.delete` on the in-flight map, observed on ids. -/
def idsDelete (ids : List String) (id : String) : List String :=
  ids.filter fun x => x != id

/-- The environment of one `execute` call: the registered providers, the
outcome of the provider model call, the registered tools, the configured
`agent.tools.enabled` list, the clock readings, and the generated
knowledge-entry id. -/
structure Env where
  providers : List Provider
  exec : ModelRequest → Except String ModelResponse
  tools : List Tool
  enabledTools : List String
  now : Nat
  requestElapsed : Nat
  freshKnowledgeId : String

/-- An `IAgentContext` as assembled by `gatherContext`. -/
structure AgentContext where
  conversation : List StoredMessage
  workspace : Option String
  file : Option String
  selection : Option String
  language : Option String
  relevantKnowledge : List KnowledgeEntry
deriving Repr

/-- `AgentOrchestrator.gatherContext`: two memory reads, no writes. -/
def gatherContext (mem : MemoryState) (req : AgentRequest) : AgentContext :=
  { conversation := getConversationHistory mem req.id
    workspace := req.ctxWorkspace
    file := req.ctxFilePath
    selection := req.ctxSelection
    language := req.ctxLanguage
    relevantKnowledge := searchRelevantKnowledge req.content mem.entries mem.graphNodes }

/-- The task type `AgentOrchestrator.selectModel` passes to the model
manager for each request type. -/
def taskTypeOf (t : RequestType) : String :=
  match t with
  | .chat => "conversational"
  | .command => "instruction"
  | .analysis => "analytical"
  | .refactor => "code"
  | .debug => "debugging"
  | .test => "testing"

/-- `AgentOrchestrator.generateSystemPrompt`. -/
def generateSystemPrompt (t : RequestType) : String :=
  let base := "You are an expert AI coding assistant integrated into VSCode.\nYou have access to powerful tools and can help with various coding tasks."
  let typeSpecific :=
    match t with
    | .chat => "You are having a conversation about coding. Be helpful and engaging."
    | .command => "Execute the requested coding task using available tools."
    | .analysis => "Analyze the provided code and provide insights."
    | .refactor => "Refactor the code to improve quality, maintainability, and performance."
    | .debug => "Debug the issue and provide solutions."
    | .test => "Generate or improve tests for the codebase."
  base ++ "\n\n" ++ typeSpecific

/-- `getTemperatureForRequestType` (every request type is in the table). -/
def temperatureFor (t : RequestType) : ℚ :=
  match t with
  | .chat => mkRat 7 10
  | .command => mkRat 3 10
  | .analysis => mkRat 1 5
  | .refactor => mkRat 3 10
  | .debug => mkRat 1 5
  | .test => mkRat 3 10

/-- `getMaxTokensForRequestType` (every request type is in the table). -/
def maxTokensFor (t : RequestType) : Nat :=
  match t with
  | .chat => 2048
  | .command => 4096
  | .analysis => 8192
  | .refactor => 8192
  | .debug => 4096
  | .test => 4096

/-- `AgentOrchestrator.prepareModelRequest`: system prompt, prior
conversation messages (roles and contents), then the user content. -/
def prepareModelRequest (req : AgentRequest) (context : AgentContext)
    (model : ModelInfo) : ModelRequest :=
  { messages :=
      { role := .system, content := generateSystemPrompt req.rtype } ::
      (context.conversation.map fun c => { role := c.role, content := c.content }) ++
      [{ role := .user, content := req.content }]
    model := model.name
    provider := model.provider
    temperature := temperatureFor req.rtype
    maxTokens := maxTokensFor req.rtype }

structure EnhancedResponse where
  content : String
  tokens : Option Nat
  confidence : ℚ
deriving DecidableEq, Repr

/-- `tool.error || JSON.stringify(tool.result)`: a falsy (absent or
empty) error falls back to the stringified result, where a `null` result
renders as `null`. -/
def toolResultText (tr : AgentToolResult) : String :=
  match tr.error with
  | some e => if e.isEmpty then (tr.result.map id).getD "null" else e
  | none => (tr.result.map id).getD "null"

/-- `AgentOrchestrator.enhanceResponse`: append a tool-result summary
block when any tool ran. -/
def enhanceResponse (modelResponse : ModelResponse)
    (toolResults : List AgentToolResult) : EnhancedResponse :=
  let enhancedContent :=
    if toolResults.isEmpty then modelResponse.content
    else
      modelResponse.content ++ "\n\nTool Results:\n" ++
        String.join (toolResults.map fun tr =>
          "**" ++ tr.name ++ "**: " ++ toolResultText tr ++ "\n")
  { content := enhancedContent
    tokens := modelResponse.tokens
    confidence := modelResponse.confidence.getD (mkRat 4 5) }

/-- The error `IAgentResponse` built in the `catch` block: empty content,
the thrown message as `error`, and no `tools` or `metadata` fields. -/
def errorResponse (req : AgentRequest) (e : String) : AgentResponse :=
  { id := req.id ++ "_error"
    requestId := req.id
    content := ""
    tools := none
    error := some e
    metadata := none }

/-- The success `IAgentResponse` built at the end of the `try` block:
the enhanced content, the tool records, and the model metadata
(`duration` is the `Date.now() - startTime` reading the environment
supplies). -/
def successResponse (env : Env) (req : AgentRequest) (model : ModelInfo)
    (modelResponse : ModelResponse) : AgentResponse :=
  let toolResults := executeTools env.tools env.enabledTools req
  let enhanced := enhanceResponse modelResponse toolResults
  { id := req.id ++ "_response"
    requestId := req.id
    content := enhanced.content
    tools := some toolResults
    error := none
    metadata := some
      { model := model.name
        provider := model.provider
        tokens := enhanced.tokens.getD 0
        duration := env.requestElapsed } }

/-- The `try` block of `AgentOrchestrator.execute` after the "request
started" event: the only statements that can throw are model selection
and the model call (tool failures are caught inside `executeTools`, and
`storeInteraction` catches its own errors).  On success the interaction
is persisted, the success response built, and the "response received"
event fired. -/
def executeBody (env : Env) (st : OrchState) (req : AgentRequest) :
    AgentResponse × OrchState :=
  match selectModel env.providers (taskTypeOf req.rtype) req.optModel with
  | .error e => (errorResponse req e, st)
  | .ok model =>
    let context := gatherContext st.memory req
    let modelRequest := prepareModelRequest req context model
    let toolResults := executeTools env.tools env.enabledTools req
    match modelManagerExecute env.providers env.exec modelRequest with
    | .error e => (errorResponse req e, st)
    | .ok modelResponse =>
      let enhanced := enhanceResponse modelResponse toolResults
      let memory := storeInteraction st.memory req enhanced.content env.now env.freshKnowledgeId
      let response := successResponse env req model modelResponse
      (response,
       { st with
         memory := memory
         events := st.events ++ [.responseReceived response] })

/-- The part of `execute` before the `try` block: register the abort
controller under the request id (unconditionally — there is no duplicate
check, so an in-flight id is overwritten) and fire "request started". -/
def startState (st : OrchState) (req : AgentRequest) : OrchState :=
  { st with
    activeRequests := idsSet st.activeRequests req.id
    events := st.events ++ [.started req] }

/-- The `finally` clause of `execute`, applied on every path: deregister
the id and fire "request ended". -/
def finalize (req : AgentRequest) (result : AgentResponse × OrchState) :
    AgentResponse × OrchState :=
  (result.1,
   { result.2 with
     activeRequests := idsDelete result.2.activeRequests req.id
     events := result.2.events ++ [.ended req.id] })

/-- `AgentOrchestrator.execute`: registration and "request started",
then the body with every throw caught into an error response, then the
unconditional `finally` cleanup. -/
def execute (env : Env) (st : OrchState) (req : AgentRequest) :
    AgentResponse × OrchState :=
  finalize req (executeBody env (startState st req) req)

/-- `AgentOrchestrator.cancel`: abort and deregister when in flight,
no-op otherwise. -/
def cancel (st : OrchState) (requestId : String) : OrchState :=
  if st.activeRequests.contains requestId then
    { st with activeRequests := idsDelete st.activeRequests requestId }
  else st

/-- The `IAgentStatus` snapshot of `getStatus`, restricted to the fields
derived from orchestrator state (`availableModels`, `currentModel` and
`memoryUsage` are display readouts of the collaborators). -/
structure AgentStatus where
  isActive : Bool
  activeRequests : List String
deriving DecidableEq, Repr

/-- `AgentOrchestrator.getStatus`. -/
def getStatus (st : OrchState) : AgentStatus :=
  { isActive := st.activeRequests.length > 0
    activeRequests := st.activeRequests }

/-- Does a provider's current listing succeed and contain a model whose
name matches the given name exactly or by substring?  (The hypothesis of
the preferred-model claim, phrased decidably.) -/
def providerListsMatch (p : Provider) (modelName : String) : Bool :=
  match p.listing with
  | .ok models => models.any fun m => modelNameMatches m modelName
  | .error _ => false

/-! ## Concrete fixtures

Closed data used by witnesses and counterexamples: the static provider
listings from `model-manager.ts` (Hugging Face and OpenAI reachable, the
Ollama endpoint down, the placeholder providers unavailable with empty
listings), plus small requests, tools and memory states. -/

def codellamaInfo : ModelInfo :=
  { name := "codellama", provider := "huggingface", mkind := .apiModel
    capabilities := ["code", "chat", "instruction"], contextLength := 16384
    costPerToken := some (mkRat 1 10000) }

def starcoderInfo : ModelInfo :=
  { name := "starcoder", provider := "huggingface", mkind := .apiModel
    capabilities := ["code", "completion"], contextLength := 8192
    costPerToken := some (mkRat 1 10000) }

def deepseekInfo : ModelInfo :=
  { name := "deepseek-coder", provider := "huggingface", mkind := .apiModel
    capabilities := ["code", "chat", "instruction"], contextLength := 32768
    costPerToken := some (mkRat 1 10000) }

def gpt4oInfo : ModelInfo :=
  { name := "gpt-4o", provider := "openai", mkind := .apiModel
    capabilities := ["chat", "code", "instruction", "analysis"], contextLength := 128000
    costPerToken := some (mkRat 3 100000) }

def gpt4TurboInfo : ModelInfo :=
  { name := "gpt-4-turbo", provider := "openai", mkind := .apiModel
    capabilities := ["chat", "code", "instruction", "analysis"], contextLength := 128000
    costPerToken := some (mkRat 1 100000) }

def gpt35Info : ModelInfo :=
  { name := "gpt-3.5-turbo", provider := "openai", mkind := .apiModel
    capabilities := ["chat", "code", "instruction"], contextLength := 16384
    costPerToken := some (mkRat 1 500000) }

def providersFixture : List Provider :=
  [{ name := "huggingface", available := true
     listing := .ok [codellamaInfo, starcoderInfo, deepseekInfo] },
   { name := "ollama", available := false, listing := .ok [] },
   { name := "openai", available := true
     listing := .ok [gpt4oInfo, gpt4TurboInfo, gpt35Info] },
   { name := "anthropic", available := false, listing := .ok [] },
   { name := "google", available := false, listing := .ok [] },
   { name := "azure", available := false, listing := .ok [] },
   { name := "openrouter", available := false, listing := .ok [] }]

def mistralInfo : ModelInfo :=
  { name := "mistral-small", provider := "local", mkind := .localModel
    capabilities := ["chat"], contextLength := 4096, costPerToken := some 0 }

def localOnlyProviders : List Provider :=
  [{ name := "local", available := true, listing := .ok [mistralInfo] }]

def okExec : ModelRequest → Except String ModelResponse :=
  fun _ => .ok { content := "model reply", tokens := some 42 }

def abortExec : ModelRequest → Except String ModelResponse :=
  fun _ => .error "Request was aborted"

def emptyMemory : MemoryState := { conversations := [], entries := [], graphNodes := [] }

def freshState : OrchState :=
  { activeRequests := [], events := [], memory := emptyMemory }

/-- A state in which request id `r1` is already in flight. -/
def dupState : OrchState :=
  { activeRequests := ["r1"], events := [], memory := emptyMemory }

def chatReq : AgentRequest := { id := "r1", rtype := .chat, content := "hello" }

def baseEnv : Env :=
  { providers := providersFixture, exec := okExec, tools := [], enabledTools := []
    now := 1000, requestElapsed := 5, freshKnowledgeId := "knowledge_1000_1" }

def failEnv : Env := { baseEnv with exec := abortExec }

def toolOkFixture : Tool :=
  { name := "read_file", capabilities := ["fileops", "analysis", "general"]
    outcome := .ok "file data", elapsed := 7 }

def toolFailFixture : Tool :=
  { name := "write_file", capabilities := ["fileops", "general"]
    outcome := .error "disk full", elapsed := 5 }

/-- Model call fails after a tool has executed successfully. -/
def toolThenFailEnv : Env := { failEnv with tools := [toolOkFixture] }

/-- Model call succeeds while the registered tool fails. -/
def toolFailEnv : Env := { baseEnv with tools := [toolFailFixture] }

/-- The stored knowledge entry of the relevance-search example. -/
def dbEntry : MemoryEntry :=
  { id := "k1", mtype := .knowledge
    content := "I got a database connection error today"
    source := "conversation", timestamp := 0
    relevanceMeta := mkRat 4 5, tags := [] }

def seededMemory : MemoryState :=
  { conversations :=
      [("r0",
        { messages :=
            [{ role := .user, content := "earlier question", timestamp := 1 },
             { role := .assistant, content := "earlier answer", timestamp := 2 }]
          summary := "", keyTopics := [], lastActivity := 2 })]
    entries := [dbEntry]
    graphNodes := [] }

def seededState : OrchState :=
  { activeRequests := [], events := [], memory := seededMemory }

/-- The failure, if any, of the kind-specific processing before a model
answer is obtained: model selection (step 3) or the model call (step 7).
These are the only throwing statements in the `try` block, so this is
exactly the error the caller observes. -/
def processingFailure (env : Env) (mem : MemoryState) (req : AgentRequest) :
    Option String :=
  match selectModel env.providers (taskTypeOf req.rtype) req.optModel with
  | .error e => some e
  | .ok model =>
    match modelManagerExecute env.providers env.exec
        (prepareModelRequest req (gatherContext mem req) model) with
    | .error e => some e
    | .ok _ => none

/-! ## Structural lemmas about `executeBody` -/

/-- Complete case analysis of the `try`/`catch` part of `execute`:
either the processing failed with some message `e` and the body yields
the error response with the state untouched, or it succeeded and the
body yields the success response, stores the interaction, and fires the
"response received" event. -/
theorem executeBody_spec (env : Env) (st : OrchState) (req : AgentRequest) :
    (∃ e, processingFailure env st.memory req = some e ∧
          executeBody env st req = (errorResponse req e, st)) ∨
    (processingFailure env st.memory req = none ∧
     ∃ model modelResponse,
       selectModel env.providers (taskTypeOf req.rtype) req.optModel = Except.ok model ∧
       modelManagerExecute env.providers env.exec
         (prepareModelRequest req (gatherContext st.memory req) model) =
           Except.ok modelResponse ∧
       executeBody env st req =
         (successResponse env req model modelResponse,
          { st with
            memory := storeInteraction st.memory req
              (enhanceResponse modelResponse
                (executeTools env.tools env.enabledTools req)).content
              env.now env.freshKnowledgeId
            events := st.events ++
              [AgentEvent.responseReceived (successResponse env req model modelResponse)] })) := by
  unfold executeBody processingFailure
  dsimp only
  cases h1 : selectModel env.providers (taskTypeOf req.rtype) req.optModel with
  | error e => exact Or.inl ⟨e, rfl, rfl⟩
  | ok model =>
    dsimp only
    cases h2 : modelManagerExecute env.providers env.exec
        (prepareModelRequest req (gatherContext st.memory req) model) with
    | error e => exact Or.inl ⟨e, rfl, rfl⟩
    | ok modelResponse => exact Or.inr ⟨rfl, model, modelResponse, rfl, h2, rfl⟩

/-- The body never touches the in-flight map. -/
theorem executeBody_activeRequests (env : Env) (st : OrchState) (req : AgentRequest) :
    (executeBody env st req).2.activeRequests = st.activeRequests := by
  unfold executeBody
  dsimp only
  split
  · rfl
  · split <;> rfl

/-- The response produced by the body depends on the state only through
the memory component. -/
theorem executeBody_response_congr (env : Env) (st st' : OrchState)
    (req : AgentRequest) (h : st.memory = st'.memory) :
    (executeBody env st req).1 = (executeBody env st' req).1 := by
  unfold executeBody
  rw [h]
  dsimp only
  cases h1 : selectModel env.providers (taskTypeOf req.rtype) req.optModel with
  | error e => rfl
  | ok model =>
    dsimp only
    cases h2 : modelManagerExecute env.providers env.exec
        (prepareModelRequest req (gatherContext st'.memory req) model) with
    | error e => rfl
    | ok modelResponse => rfl

/-- A request id never survives its own `idsDelete`. -/
theorem not_mem_idsDelete (ids : List String) (id : String) :
    id ∉ idsDelete ids id := by
  intro h
  rw [idsDelete, List.mem_filter] at h
  simp at h

/-- Deleting an id right after setting it deletes exactly the previous
occurrences as well. -/
theorem idsDelete_idsSet (ids : List String) (id : String) :
    idsDelete (idsSet ids id) id = idsDelete ids id := by
  unfold idsSet idsDelete
  by_cases h : id ∈ ids
  · simp [h]
  · simp [h, List.filter_append]

/-- Complete case analysis of `execute`: on a processing failure the
error response is returned, the memory is untouched, and exactly the
"started" and "ended" events fire; on success the success response is
returned, the interaction is stored, and "started", "response received"
and "ended" fire in order.  Either way the id is gone from the in-flight
map afterwards. -/
theorem execute_eq_cases (env : Env) (st : OrchState) (req : AgentRequest) :
    (∃ e, processingFailure env st.memory req = some e ∧
       execute env st req =
         (errorResponse req e,
          { activeRequests := idsDelete st.activeRequests req.id
            events := st.events ++ [AgentEvent.started req, AgentEvent.ended req.id]
            memory := st.memory })) ∨
    (processingFailure env st.memory req = none ∧
     ∃ model modelResponse,
       selectModel env.providers (taskTypeOf req.rtype) req.optModel = Except.ok model ∧
       modelManagerExecute env.providers env.exec
         (prepareModelRequest req (gatherContext st.memory req) model) =
           Except.ok modelResponse ∧
       execute env st req =
         (successResponse env req model modelResponse,
          { activeRequests := idsDelete st.activeRequests req.id
            events := st.events ++
              [AgentEvent.started req,
               AgentEvent.responseReceived (successResponse env req model modelResponse),
               AgentEvent.ended req.id]
            memory := storeInteraction st.memory req
              (enhanceResponse modelResponse
                (executeTools env.tools env.enabledTools req)).content
              env.now env.freshKnowledgeId })) := by
  rcases executeBody_spec env (startState st req) req with
    ⟨e, hpf, hbody⟩ | ⟨hpf, model, modelResponse, h1, h2, hbody⟩
  · left
    refine ⟨e, hpf, ?_⟩
    unfold execute
    rw [hbody]
    unfold finalize startState
    dsimp only
    rw [idsDelete_idsSet]
    simp [List.append_assoc]
  · right
    refine ⟨hpf, model, modelResponse, h1, h2, ?_⟩
    unfold execute
    rw [hbody]
    unfold finalize startState
    dsimp only
    rw [idsDelete_idsSet]
    simp [List.append_assoc]

/-- The error field of the returned response is exactly the processing
failure (and `none` on success). -/
theorem execute_error_eq (env : Env) (st : OrchState) (req : AgentRequest) :
    (execute env st req).1.error = processingFailure env st.memory req := by
  rcases execute_eq_cases env st req with ⟨e, hpf, hx⟩ | ⟨hpf, model, mr, h1, h2, hx⟩
  · rw [hx, hpf]; rfl
  · rw [hx, hpf]; rfl

/-! ## Claim theorems -/

/-- C1 (counterexample): `execute` does not reject a request whose id is
already in-flight.  With `r1` registered in `dupState`, a second
submission of `r1` is not failed with a `DuplicateRequest` error before
side effects: its "request started" event fires and the call completes
with `error = none`, contradicting the claimed rejection. -/
theorem duplicate_request_not_rejected :
    (execute baseEnv dupState chatReq).1.error = none ∧
    AgentEvent.started chatReq ∈ (execute baseEnv dupState chatReq).2.events := by
  have hpfnone : processingFailure baseEnv dupState.memory chatReq = none := by decide
  rcases execute_eq_cases baseEnv dupState chatReq with ⟨e, hpf, hx⟩ | ⟨_, m, mr, _, _, hx⟩
  · rw [hpfnone] at hpf; cases hpf
  · rw [hx]
    exact ⟨rfl, by simp⟩

/-- C1 (amended): `execute` performs no duplicate-id check at all: for
every state — in particular one where `req.id` is already in-flight — it
fires "request started" and produces exactly the response it would
produce from an empty in-flight map; a duplicate submission proceeds to
`Running` like any other (`Map.set` merely overwrites the abort
controller). -/
theorem execute_ignores_inflight_map (env : Env) (st : OrchState) (req : AgentRequest) :
    AgentEvent.started req ∈ (execute env st req).2.events ∧
    (execute env st req).1 = (execute env { st with activeRequests := [] } req).1 := by
  constructor
  · rcases execute_eq_cases env st req with ⟨e, _, hx⟩ | ⟨_, m, mr, _, _, hx⟩ <;>
      (rw [hx]; simp)
  · show (executeBody env (startState st req) req).1 =
      (executeBody env (startState { st with activeRequests := [] } req) req).1
    exact executeBody_response_congr env _ _ req rfl

/-- C2: whatever the outcome of `execute`, the `finally` cleanup removes
the in-flight entry for the request id — a subsequent `getStatus`
snapshot never lists it — and fires the "request ended" event for it. -/
theorem execute_cleanup_unconditional (env : Env) (st : OrchState) (req : AgentRequest) :
    req.id ∉ (getStatus (execute env st req).2).activeRequests ∧
    AgentEvent.ended req.id ∈ (execute env st req).2.events := by
  rcases execute_eq_cases env st req with ⟨e, _, hx⟩ | ⟨_, m, mr, _, _, hx⟩ <;>
    (rw [hx]; exact ⟨not_mem_idsDelete _ _, by simp⟩)

/-- C3: `execute` always resolves to a response for the submitted id
(the embedding is a total function: every throw inside the `try` block
is caught); its `error` field equals the processing failure — set iff
model selection or the model call failed before a model answer was
obtained — and on failure the content is empty and only "started" and
"ended" fire (no "response received"), while on success "response
received" fires between them. -/
theorem execute_error_iff_failure (env : Env) (st : OrchState) (req : AgentRequest) :
    (execute env st req).1.requestId = req.id ∧
    (execute env st req).1.error = processingFailure env st.memory req ∧
    (∀ e, processingFailure env st.memory req = some e →
        (execute env st req).1.content = "" ∧
        (execute env st req).2.events =
          st.events ++ [AgentEvent.started req, AgentEvent.ended req.id]) ∧
    (processingFailure env st.memory req = none →
        (execute env st req).2.events =
          st.events ++ [AgentEvent.started req,
            AgentEvent.responseReceived (execute env st req).1,
            AgentEvent.ended req.id]) := by
  refine ⟨?_, execute_error_eq env st req, ?_, ?_⟩
  · rcases execute_eq_cases env st req with ⟨e, _, hx⟩ | ⟨_, m, mr, _, _, hx⟩ <;> (rw [hx]; rfl)
  · intro e he
    rcases execute_eq_cases env st req with ⟨e2, hpf, hx⟩ | ⟨hpf, m, mr, _, _, hx⟩
    · rw [hx]; exact ⟨rfl, rfl⟩
    · rw [hpf] at he; cases he
  · intro hnone
    rcases execute_eq_cases env st req with ⟨e2, hpf, hx⟩ | ⟨hpf, m, mr, _, _, hx⟩
    · rw [hpf] at hnone; cases hnone
    · rw [hx]

/-- C3 (witness): on a concrete aborted model call the response content
is empty and only "started"/"ended" fire; on a concrete successful call
the "response received" event fires in between. -/
theorem execute_error_iff_failure_witness :
    ((execute failEnv freshState chatReq).1.content = "" ∧
     (execute failEnv freshState chatReq).2.events =
       freshState.events ++ [AgentEvent.started chatReq, AgentEvent.ended chatReq.id]) ∧
    (execute baseEnv freshState chatReq).2.events =
      freshState.events ++ [AgentEvent.started chatReq,
        AgentEvent.responseReceived (execute baseEnv freshState chatReq).1,
        AgentEvent.ended chatReq.id] := by
  constructor
  · exact (execute_error_iff_failure failEnv freshState chatReq).2.2.1
      "Request was aborted" (by decide)
  · exact (execute_error_iff_failure baseEnv freshState chatReq).2.2.2 (by decide)

/-- C9: the failure-path response carries only the request id (as
`requestId`, with `id` the request id suffixed `_error`), empty content
and the error message: `tools` and `metadata` are absent even when
eligible tools had already executed before the failing step. -/
theorem error_response_carries_only_error (env : Env) (st : OrchState)
    (req : AgentRequest) (e : String)
    (h : (execute env st req).1.error = some e) :
    (execute env st req).1.tools = none ∧
    (execute env st req).1.metadata = none ∧
    (execute env st req).1.content = "" ∧
    (execute env st req).1.id = req.id ++ "_error" ∧
    (execute env st req).1.requestId = req.id := by
  rcases execute_eq_cases env st req with ⟨e2, hpf, hx⟩ | ⟨hpf, m, mr, _, _, hx⟩
  · rw [hx]; exact ⟨rfl, rfl, rfl, rfl, rfl⟩
  · rw [execute_error_eq, hpf] at h; cases h

/-- C9 (witness): a successful tool runs, then the model call aborts;
the returned response surfaces neither the tool results nor metadata. -/
theorem error_response_carries_only_error_witness :
    executeTools toolThenFailEnv.tools toolThenFailEnv.enabledTools chatReq =
      [{ name := "read_file", result := some "file data", error := none, duration := 7 }] ∧
    ((execute toolThenFailEnv freshState chatReq).1.tools = none ∧
     (execute toolThenFailEnv freshState chatReq).1.metadata = none ∧
     (execute toolThenFailEnv freshState chatReq).1.content = "" ∧
     (execute toolThenFailEnv freshState chatReq).1.id = chatReq.id ++ "_error" ∧
     (execute toolThenFailEnv freshState chatReq).1.requestId = chatReq.id) := by
  exact ⟨by decide,
    error_response_carries_only_error toolThenFailEnv freshState chatReq
      "Request was aborted" (by decide)⟩

/-- C10: when `execute` fails (error set), no interaction is persisted:
the whole memory state — in particular the conversation history for the
request id and the stored knowledge entries — is exactly as before the
call, because `storeInteraction` sits on the success path after the
model call. -/
theorem failure_leaves_memory_unchanged (env : Env) (st : OrchState)
    (req : AgentRequest)
    (h : ((execute env st req).1.error).isSome = true) :
    (execute env st req).2.memory = st.memory ∧
    getConversationHistory (execute env st req).2.memory req.id =
      getConversationHistory st.memory req.id ∧
    (execute env st req).2.memory.entries = st.memory.entries := by
  rcases execute_eq_cases env st req with ⟨e2, hpf, hx⟩ | ⟨hpf, m, mr, _, _, hx⟩
  · rw [hx]; exact ⟨rfl, rfl, rfl⟩
  · rw [execute_error_eq, hpf] at h; cases h

/-- C10 (witness): a concrete aborted call against a seeded memory
leaves conversations and knowledge exactly as they were. -/
theorem failure_leaves_memory_unchanged_witness :
    (execute failEnv seededState chatReq).2.memory = seededState.memory ∧
    getConversationHistory (execute failEnv seededState chatReq).2.memory chatReq.id =
      getConversationHistory seededState.memory chatReq.id ∧
    (execute failEnv seededState chatReq).2.memory.entries = seededState.memory.entries :=
  failure_leaves_memory_unchanged failEnv seededState chatReq (by decide)

/-- C4 (counterexample): a failing tool invocation is not timed: the
tool `write_file` fails after 5 ms of wall-clock time, yet its
`toolResults` record carries `duration := 0` — the recorded duration
never equals the elapsed time (the `catch` branch hardcodes 0). -/
theorem tool_failure_duration_zero :
    executeTools [toolFailFixture] [] chatReq =
      [{ name := "write_file", result := none, error := some "disk full", duration := 0 }] ∧
    (executeTools [toolFailFixture] [] chatReq).map AgentToolResult.duration = [0] ∧
    toolFailFixture.elapsed = 5 ∧ (0 : Nat) ≠ 5 := by
  refine ⟨by decide, by decide, rfl, by decide⟩

/-- C4 (amended): every eligible tool whose invocation fails is caught
and recorded as a `toolResults` entry with `error` set, `result` null
and `duration` 0 (the elapsed time is not recorded), and the failure
never influences whether the request itself fails: the response error is
the same for any registered tool set. -/
theorem tool_failure_recorded_never_fatal (env : Env) (st : OrchState)
    (req : AgentRequest) :
    (∀ t, t ∈ getToolsForRequest env.tools env.enabledTools req →
       ∀ e, t.outcome = Except.error e →
         ({ name := t.name, result := none, error := some e, duration := 0 } :
            AgentToolResult) ∈ executeTools env.tools env.enabledTools req) ∧
    (∀ tools2, (execute { env with tools := tools2 } st req).1.error =
        (execute env st req).1.error) := by
  constructor
  · intro t ht e he
    unfold executeTools
    rw [List.mem_map]
    exact ⟨t, ht, by rw [toolResultFor, he]⟩
  · intro tools2
    rw [execute_error_eq, execute_error_eq]
    rfl

/-- C4 (witness): the concrete failing tool is recorded with its error
and null result inside a request that still succeeds, and removing the
tool set entirely leaves the response error unchanged. -/
theorem tool_failure_recorded_never_fatal_witness :
    ({ name := "write_file", result := none, error := some "disk full", duration := 0 } :
       AgentToolResult) ∈ executeTools toolFailEnv.tools toolFailEnv.enabledTools chatReq ∧
    (execute { toolFailEnv with tools := [] } freshState chatReq).1.error =
      (execute toolFailEnv freshState chatReq).1.error := by
  constructor
  · exact (tool_failure_recorded_never_fatal toolFailEnv freshState chatReq).1
      toolFailFixture (by decide) "disk full" rfl
  · exact (tool_failure_recorded_never_fatal toolFailEnv freshState chatReq).2 []

/-- C8: a tool is dispatched for a request iff it is registered, its
capability set intersects the request type's required capability set
non-emptily and, whenever the deployment enabled-tool list is non-empty,
the list names the tool — the last condition regardless of capability
match. -/
theorem tool_eligibility_iff (tools : List Tool) (enabledTools : List String)
    (req : AgentRequest) (t : Tool) :
    t ∈ getToolsForRequest tools enabledTools req ↔
      t ∈ tools ∧
      (∃ c ∈ t.capabilities, c ∈ capabilityMap req.rtype) ∧
      (enabledTools ≠ [] → t.name ∈ enabledTools) := by
  unfold getToolsForRequest
  rw [List.mem_filter]
  constructor
  · rintro ⟨hmem, hcond⟩
    by_cases hgate : (!enabledTools.contains t.name && decide (enabledTools.length > 0)) = true
    · rw [if_pos hgate] at hcond; cases hcond
    · rw [if_neg hgate] at hcond
      refine ⟨hmem, ?_, ?_⟩
      · unfold toolCapabilitiesMatchRequest at hcond
        rw [List.any_eq_true] at hcond
        obtain ⟨c, hc, hcc⟩ := hcond
        exact ⟨c, hc, by simpa using hcc⟩
      · intro hne
        simp only [Bool.and_eq_true, Bool.not_eq_true', decide_eq_true_eq, not_and] at hgate
        by_cases hc : t.name ∈ enabledTools
        · exact hc
        · exfalso
          have hlen : 0 < enabledTools.length := List.length_pos.mpr hne
          have := hgate (by simpa using hc)
          exact this hlen
  · rintro ⟨hmem, ⟨c, hc, hcc⟩, hen⟩
    refine ⟨hmem, ?_⟩
    have hcap : toolCapabilitiesMatchRequest t req = true := by
      unfold toolCapabilitiesMatchRequest
      rw [List.any_eq_true]
      exact ⟨c, hc, by simpa using hcc⟩
    by_cases hne : enabledTools = []
    · subst hne; simpa using hcap
    · have hmemname := hen hne
      simp [hmemname, hcap]

/-- C8 (witness): the failing fixture tool (capability `general`) is
eligible for a chat request with no enabled-list configured. -/
theorem tool_eligibility_iff_witness :
    toolFailFixture ∈ getToolsForRequest [toolFailFixture] [] chatReq :=
  (tool_eligibility_iff [toolFailFixture] [] chatReq toolFailFixture).mpr (by decide)

/-! ## Relevance search lemmas -/

theorem mem_insertByRelevance (x a : KnowledgeEntry) (l : List KnowledgeEntry) :
    a ∈ insertByRelevance x l ↔ a = x ∨ a ∈ l := by
  induction l with
  | nil => simp [insertByRelevance]
  | cons y ys ih =>
    unfold insertByRelevance
    by_cases h : y.relevance < x.relevance
    · simp [h]
    · simp only [h, if_false, List.mem_cons, ih]
      tauto

theorem mem_sortByRelevance (a : KnowledgeEntry) (l : List KnowledgeEntry) :
    a ∈ sortByRelevance l ↔ a ∈ l := by
  induction l with
  | nil => simp [sortByRelevance]
  | cons y ys ih =>
    simp only [sortByRelevance, List.foldr_cons, mem_insertByRelevance, List.mem_cons]
    rw [← sortByRelevance, ih]

/-- Membership in the search output comes from a stored entry above the
0.3 threshold or a graph node above the 0.4 threshold. -/
theorem searchRelevantKnowledge_sources (q : String) (memory : List MemoryEntry)
    (graphNodes : List KnowledgeNode) (r : KnowledgeEntry)
    (h : r ∈ searchRelevantKnowledge q memory graphNodes) :
    (∃ entry ∈ memory,
       (entry.mtype = MemType.knowledge ∨ entry.mtype = MemType.pattern) ∧
       calculateRelevance q entry.content > mkRat 3 10 ∧
       r = { content := entry.content
             relevance := calculateRelevance q entry.content
             source := entry.source
             ktype := entry.mtype.toName }) ∨
    (∃ node ∈ graphNodes,
       calculateRelevance q (node.label ++ " " ++ node.propsText) > mkRat 2 5 ∧
       r = { content := "Knowledge: " ++ node.label ++ " (" ++ node.ntype ++ ")"
             relevance := calculateRelevance q (node.label ++ " " ++ node.propsText)
             source := "knowledge_graph"
             ktype := "graph_node" }) := by
  unfold searchRelevantKnowledge at h
  dsimp only at h
  have h2 := List.take_subset 10 _ h
  rw [mem_sortByRelevance, List.mem_append] at h2
  rcases h2 with hmem | hgraph
  · left
    rw [List.mem_filterMap] at hmem
    obtain ⟨entry, hin, hentry⟩ := hmem
    by_cases ht : entry.mtype = MemType.knowledge ∨ entry.mtype = MemType.pattern
    · rw [if_pos ht] at hentry
      by_cases hrel : calculateRelevance q entry.content > mkRat 3 10
      · rw [if_pos hrel] at hentry
        cases hentry
        exact ⟨entry, hin, ht, hrel, rfl⟩
      · rw [if_neg hrel] at hentry; cases hentry
    · rw [if_neg ht] at hentry; cases hentry
  · right
    unfold searchKnowledgeGraph at hgraph
    rw [List.mem_filterMap] at hgraph
    obtain ⟨node, hin, hnode⟩ := hgraph
    by_cases hrel : calculateRelevance q (node.label ++ " " ++ node.propsText) > mkRat 2 5
    · rw [if_pos hrel] at hnode
      cases hnode
      exact ⟨node, hin, hrel, rfl⟩
    · rw [if_neg hrel] at hnode; cases hnode

/-- C5: relevance search scores a stored candidate as the fraction of
query tokens present in its content (the relevance reported with a
returned entry is `calculateRelevance` of the query against that
content), admits a result only if its score meets the 0.3 minimum, and
on the concrete example: "database error" scores 1 (2 of 2 query tokens
present) against the stored sentence and the entry is returned, while
"quantum physics" scores 0 and nothing is returned. -/
theorem relevance_search_threshold_and_examples :
    (∀ q memory graphNodes r,
        r ∈ searchRelevantKnowledge q memory graphNodes →
          (3 : ℚ) / 10 ≤ r.relevance) ∧
    (∀ q memory r, r ∈ searchRelevantKnowledge q memory [] →
        r.relevance = calculateRelevance q r.content) ∧
    calculateRelevance "database error" "I got a database connection error today" = 1 ∧
    searchRelevantKnowledge "database error" [dbEntry] [] =
      [{ content := "I got a database connection error today", relevance := 1
         source := "conversation", ktype := "knowledge" }] ∧
    calculateRelevance "quantum physics" "I got a database connection error today" = 0 ∧
    searchRelevantKnowledge "quantum physics" [dbEntry] [] = [] := by
  refine ⟨?_, ?_, by decide, by decide, by decide, by decide⟩
  · intro q memory graphNodes r h
    rcases searchRelevantKnowledge_sources q memory graphNodes r h with
      ⟨entry, _, _, hrel, rfl⟩ | ⟨node, _, hrel, rfl⟩
    · have hb : (mkRat 3 10 : ℚ) = 3 / 10 := by
        rw [Rat.mkRat_eq_div]; norm_num
      rw [← hb]
      exact le_of_lt hrel
    · have hb : (3 : ℚ) / 10 ≤ mkRat 2 5 := by
        rw [Rat.mkRat_eq_div]; norm_num
      exact le_trans hb (le_of_lt hrel)
  · intro q memory r h
    rcases searchRelevantKnowledge_sources q memory [] r h with
      ⟨entry, _, _, _, rfl⟩ | ⟨node, hnode, _, _⟩
    · rfl
    · cases hnode

/-- C5 (witness): the concrete returned entry indeed meets the 0.3
minimum. -/
theorem relevance_search_threshold_witness :
    (3 : ℚ) / 10 ≤
      ({ content := "I got a database connection error today", relevance := 1
         source := "conversation", ktype := "knowledge" } : KnowledgeEntry).relevance :=
  relevance_search_threshold_and_examples.1 "database error" [dbEntry] [] _ (by decide)

/-! ## Model selection lemmas -/

/-- A model returned by `findModel` matches the searched name. -/
theorem findModel_matches (ps : List Provider) (n : String) (m : ModelInfo)
    (h : findModel ps n = some m) : modelNameMatches m n = true := by
  induction ps with
  | nil => cases h
  | cons p ps ih =>
    unfold findModel at h
    cases hl : p.listing with
    | error e =>
      rw [hl] at h
      exact ih h
    | ok models =>
      rw [hl] at h
      dsimp only at h
      cases hf : models.find? fun m2 => modelNameMatches m2 n with
      | some m2 =>
        rw [hf] at h
        cases h
        have hp := List.find?_some hf
        simpa using hp
      | none =>
        rw [hf] at h
        exact ih h

/-- If some provider's listing succeeds and contains a matching model,
`findModel` finds one. -/
theorem findModel_isSome (ps : List Provider) (n : String)
    (h : ∃ p ∈ ps, providerListsMatch p n = true) :
    (findModel ps n).isSome = true := by
  induction ps with
  | nil => simp at h
  | cons p ps ih =>
    unfold findModel
    obtain ⟨p2, hp2, hmatch⟩ := h
    rw [List.mem_cons] at hp2
    cases hl : p.listing with
    | error e =>
      apply ih
      rcases hp2 with rfl | hp2
      · unfold providerListsMatch at hmatch
        rw [hl] at hmatch
        cases hmatch
      · exact ⟨p2, hp2, hmatch⟩
    | ok models =>
      dsimp only
      cases hf : models.find? fun m2 => modelNameMatches m2 n with
      | some m2 => rfl
      | none =>
        apply ih
        rcases hp2 with rfl | hp2
        · exfalso
          unfold providerListsMatch at hmatch
          rw [hl, List.any_eq_true] at hmatch
          obtain ⟨m2, hm2, hmm⟩ := hmatch
          rw [List.find?_eq_none] at hf
          exact absurd hmm (by simpa using hf m2 hm2)
        · exact ⟨p2, hp2, hmatch⟩

/-- C6: when a (truthy) preferred model name is supplied and some
provider's current listing contains a model whose name matches it
exactly or as a substring, `selectModel` returns a matching model, and
the kind-based task type plays no role in the outcome. -/
theorem preferred_model_overrides_table (ps : List Provider) (n : String)
    (t1 t2 : String) (hne : n.isEmpty = false)
    (h : ∃ p ∈ ps, providerListsMatch p n = true) :
    (∃ m, selectModel ps t1 (some n) = Except.ok m ∧ modelNameMatches m n = true) ∧
    selectModel ps t1 (some n) = selectModel ps t2 (some n) := by
  obtain ⟨m, hm⟩ := Option.isSome_iff_exists.mp (findModel_isSome ps n h)
  have hmm := findModel_matches ps n m hm
  constructor
  · exact ⟨m, by simp [selectModel, hne, hm], hmm⟩
  · simp [selectModel, hne, hm]

/-- C6 (witness): with the static Hugging Face and OpenAI listings,
preferred model `gpt-4o` selects provider `openai` / model `gpt-4o` for
any two task types. -/
theorem preferred_model_overrides_table_witness :
    (∃ m, selectModel providersFixture "conversational" (some "gpt-4o") = Except.ok m ∧
          modelNameMatches m "gpt-4o" = true) ∧
    selectModel providersFixture "conversational" (some "gpt-4o") =
      selectModel providersFixture "debugging" (some "gpt-4o") ∧
    selectModel providersFixture "conversational" (some "gpt-4o") = Except.ok gpt4oInfo := by
  refine ⟨?_, ?_, by decide⟩
  · exact (preferred_model_overrides_table providersFixture "gpt-4o" "conversational"
      "debugging" (by decide) (by decide)).1
  · exact (preferred_model_overrides_table providersFixture "gpt-4o" "conversational"
      "debugging" (by decide) (by decide)).2

/-- C7: when no preferred model is given, or the given one is empty or
matches nothing, selection follows the task-type policy: the first
table name found across providers' listings wins; if none is found, the
first model of the union of the available providers' listings is
returned; and if that union is empty too, selection fails with the
`No models available` error. -/
theorem selection_policy_fallbacks (ps : List Provider) (t : String)
    (pref : Option String)
    (h : pref = none ∨
         ∃ n, pref = some n ∧ (n.isEmpty = true ∨ findModel ps n = none)) :
    (∀ m, firstTableModel ps (taskModelMap t) = some m →
        selectModel ps t pref = Except.ok m) ∧
    (firstTableModel ps (taskModelMap t) = none →
      (∀ m rest, getAvailableModels ps = m :: rest →
          selectModel ps t pref = Except.ok m) ∧
      (getAvailableModels ps = [] →
          selectModel ps t pref = Except.error "No models available")) := by
  have hsel : selectModel ps t pref = selectModelByTaskType ps t := by
    rcases h with rfl | ⟨n, rfl, hemp | hnone⟩
    · rfl
    · simp [selectModel, hemp]
    · by_cases he : n.isEmpty <;> simp [selectModel, he, hnone]
  rw [hsel]
  unfold selectModelByTaskType
  constructor
  · intro m hm
    rw [hm]
  · intro hnone
    rw [hnone]
    constructor
    · intro m rest hav
      rw [hav]
    · intro hav
      rw [hav]

/-- C7 (witness): a provider set listing only `mistral-small` (none of
the table's names) yields the first available model, and an empty
provider set fails with `No models available`. -/
theorem selection_policy_fallbacks_witness :
    selectModel localOnlyProviders "conversational" none = Except.ok mistralInfo ∧
    selectModel [] "conversational" none = Except.error "No models available" := by
  constructor
  · exact ((selection_policy_fallbacks localOnlyProviders "conversational" none
      (Or.inl rfl)).2 (by decide)).1 mistralInfo [] (by decide)
  · exact ((selection_policy_fallbacks [] "conversational" none
      (Or.inl rfl)).2 (by decide)).2 (by decide)

end AgentSpec
